import Mathlib

/-!
# crud-api: the user handlers over a model of the `users` table

The six handlers of `handlers/user.go` are embedded as state-passing functions
over a value `DB` that stands for the MySQL connection: the rows of the
`users` table in their natural order, the AUTO_INCREMENT counter of `id`, and
the list of statements the handler handed to `database/sql`.

What a request carries is given already parsed: `PathId` is what
`strconv.Atoi(mux.Vars(r)["id"])` returned, `Decoded` is what
`json.NewDecoder(r.Body).Decode` left in its target together with whether it
reported an error.  A response is its status code and its body; a JSON body is
kept as a document tree, a plain-text body (written by `http.Error`) as its
message line.

The database engine is outside the repository.  Its statements are modelled
on the schema the specification gives (`id` primary key with AUTO_INCREMENT)
and on MySQL as the driver of `config/db.go` reaches it: statements do not fail
for reasons of connectivity or time, emails compare as exact strings, and
`RowsAffected` counts changed rows.  The statements whose text is fixed in the
source are modelled one by one.  The statement of `PatchUser`, whose text is
assembled from the request, is executed from that text and its parameters
alone (`DB.exec`): the text is split into tokens, parsed and bound.
-/

namespace CrudApi

/-! ## Data model (`models/user.go`) -/

/-- Record `models.User`. -/
structure User where
  ID : Int
  FirstName : String
  LastName : String
  Email : String
  Password : String
  Age : Int
deriving DecidableEq, Repr

/-- JSON documents, as produced by `encoding/json`. -/
inductive Json where
  | null
  | num (n : Int)
  | str (s : String)
  | arr (xs : List Json)
  | obj (kvs : List (String × Json))

/-- Encoding of a `models.User` under its field tags: `password` carries
`omitempty`, so the key is left out when the string is empty. -/
def User.toJson (u : User) : Json :=
  Json.obj
    ([("id", Json.num u.ID), ("firstName", Json.str u.FirstName),
      ("lastName", Json.str u.LastName), ("email", Json.str u.Email)]
      ++ (if u.Password = "" then [] else [("password", Json.str u.Password)])
      ++ [("age", Json.num u.Age)])

/-- Member of a JSON object under a key, if there is one. -/
def Json.member (key : String) : Json → Option Json
  | Json.obj kvs => kvs.lookup key
  | _ => none

/-- String a member is read into: a member that is absent leaves the zero
value of the Go field. -/
def Json.readString : Option Json → String
  | some (Json.str s) => s
  | _ => ""

/-- Integer a member is read into: a member that is absent leaves the zero
value of the Go field. -/
def Json.readInt : Option Json → Int
  | some (Json.num n) => n
  | _ => 0

/-- Reading of a JSON object into a `models.User` under its field tags, the
way `Decode(&u)` fills a zero-valued record. -/
def decodeUser (doc : Json) : User :=
  { ID := Json.readInt (doc.member "id"),
    FirstName := Json.readString (doc.member "firstName"),
    LastName := Json.readString (doc.member "lastName"),
    Email := Json.readString (doc.member "email"),
    Password := Json.readString (doc.member "password"),
    Age := Json.readInt (doc.member "age") }

/-- A Go slice value: the nil slice, or a slice over some elements. -/
inductive Slice (α : Type) where
  | nil
  | of (xs : List α)

/-- Go `append(s, x)`: appending to the nil slice allocates. -/
def Slice.append {α : Type} : Slice α → α → Slice α
  | Slice.nil, x => Slice.of [x]
  | Slice.of xs, x => Slice.of (xs ++ [x])

/-- Encoding of a `[]models.User`: `encoding/json` writes a nil slice as the
JSON value `null` and any other slice as an array. -/
def encodeUsers : Slice User → Json
  | Slice.nil => Json.null
  | Slice.of xs => Json.arr (xs.map User.toJson)

/-- Encoding of the one-entry `map[string]string` the handlers answer with. -/
def messageJson (msg : String) : Json :=
  Json.obj [("message", Json.str msg)]

/-- A Go `interface{}` value as it reaches a statement parameter: what
`encoding/json` decodes into `interface{}` (nil, bool, float64, string, slice,
map), or a Go `int`.  A JSON number is kept by its integral value. -/
inductive Value where
  | nil
  | bool (b : Bool)
  | float64 (n : Int)
  | string (s : String)
  | slice
  | map
  | int (i : Int)
deriving DecidableEq, Repr

/-! ## Requests and responses -/

/-- Outcome of `strconv.Atoi` on the `id` path variable. -/
structure PathId where
  val : Int
  err : Bool
deriving DecidableEq, Repr

/-- Outcome of `Decode(&target)`: the target afterwards, and whether an error
was returned. -/
structure Decoded (α : Type) where
  val : α
  err : Bool

/-- Body of a response. -/
inductive Body where
  | text (line : String)
  | json (doc : Json)

/-- Response written to the `http.ResponseWriter`. -/
structure Response where
  status : Nat
  body : Body

/-- Go `http.Error(w, msg, code)`. -/
def httpError (msg : String) (code : Nat) : Response :=
  { status := code, body := Body.text msg }

/-- Go `json.NewEncoder(w).Encode(v)` with no earlier `WriteHeader`. -/
def okJson (doc : Json) : Response :=
  { status := 200, body := Body.json doc }

/-! ## The database -/

/-- Statement handed to `database/sql`, with its bound parameters. -/
structure Stmt where
  query : String
  args : List Value
deriving DecidableEq, Repr

/-- Go `sql.Result`. -/
structure Result where
  lastInsertId : Int
  rowsAffected : Int
deriving DecidableEq, Repr

/-- Errors of a query. -/
inductive SqlError where
  | ErrNoRows
  | other (msg : String)
deriving DecidableEq, Repr

/-- Modelled from the spec: the MySQL database behind `*sql.DB`, which is not
part of the repository.  Table `users(id PK autoincrement, first_name,
last_name, email, password, age)` in its natural row order, the
AUTO_INCREMENT counter, and the statements issued so far. -/
structure DB where
  rows : List User
  nextId : Int
  log : List Stmt
deriving DecidableEq, Repr

/-- Key constraint of `users`: `id` is a primary key. -/
def PrimaryKey (rows : List User) : Prop :=
  (rows.map User.ID).Nodup

instance (rows : List User) : Decidable (PrimaryKey rows) :=
  inferInstanceAs (Decidable (rows.map User.ID).Nodup)

/-- Schema constraints of `users`: `id` is a primary key, and the
AUTO_INCREMENT counter lies above every stored id. -/
def DB.WF (db : DB) : Prop :=
  PrimaryKey db.rows ∧ ∀ r ∈ db.rows, r.ID < db.nextId

instance (db : DB) : Decidable db.WF :=
  inferInstanceAs (Decidable (PrimaryKey db.rows ∧ ∀ r ∈ db.rows, r.ID < db.nextId))

/-- No two records of the table share an email. -/
def EmailUnique (rows : List User) : Prop :=
  rows.Pairwise (fun a b => a.Email ≠ b.Email)

instance (rows : List User) : Decidable (EmailUnique rows) :=
  inferInstanceAs (Decidable (rows.Pairwise (fun (a b : User) => a.Email ≠ b.Email)))

/-- Record a statement as issued. -/
def DB.issue (db : DB) (query : String) (args : List Value) : DB :=
  { db with log := db.log ++ [{ query := query, args := args }] }

/-- Modelled from the spec: `SELECT EXISTS(SELECT 1 FROM users WHERE email=?)`.
Emails are compared as exact strings. -/
def DB.queryEmailExists (db : DB) (query : String) (email : String) :
    Except SqlError Bool × DB :=
  (Except.ok (db.rows.any (fun r => r.Email = email)),
   db.issue query [Value.string email])

/-- Modelled from the spec:
`SELECT EXISTS(SELECT 1 FROM users WHERE email=? AND id!=?)`. -/
def DB.queryEmailExistsOther (db : DB) (query : String) (email : String) (id : Int) :
    Except SqlError Bool × DB :=
  (Except.ok (db.rows.any (fun r => r.Email = email ∧ r.ID ≠ id)),
   db.issue query [Value.string email, Value.int id])

/-- Modelled from the spec: the INSERT of `CreateUser`.  The row takes the
AUTO_INCREMENT value as its id; a primary-key clash fails the statement. -/
def DB.execInsert (db : DB) (query : String)
    (firstName lastName email password : String) (age : Int) :
    Except SqlError Result × DB :=
  let db1 := db.issue query
    [Value.string firstName, Value.string lastName, Value.string email,
     Value.string password, Value.int age]
  if db.rows.any (fun r => r.ID = db.nextId) then
    (Except.error (SqlError.other "Duplicate entry for key PRIMARY"),
     { db1 with nextId := db.nextId + 1 })
  else
    (Except.ok { lastInsertId := db.nextId, rowsAffected := 1 },
     { db1 with
       rows := db.rows ++ [{ ID := db.nextId, FirstName := firstName, LastName := lastName,
                             Email := email, Password := password, Age := age }],
       nextId := db.nextId + 1 })

/-- Modelled from the spec:
`SELECT id, first_name, last_name, email, password, age FROM users`. -/
def DB.queryAll (db : DB) (query : String) : Except SqlError (List User) × DB :=
  (Except.ok db.rows, db.issue query [])

/-- Modelled from the spec: `SELECT ... FROM users WHERE id=?` scanned into one
record; no row gives `sql.ErrNoRows`. -/
def DB.queryById (db : DB) (query : String) (id : Int) : Except SqlError User × DB :=
  (match db.rows.find? (fun r => r.ID = id) with
   | some r => Except.ok r
   | none => Except.error SqlError.ErrNoRows,
   db.issue query [Value.int id])

/-- Modelled from the spec: an `UPDATE users SET ... WHERE id = ?` that turns
the row with the given id into `f row`.  `id` is the primary key, so one row at
most matches.  The driver is opened without `clientFoundRows`, so
`RowsAffected` counts rows whose stored values changed.  Moving a row onto an
id another row holds fails the statement; the AUTO_INCREMENT counter stays
above every stored id. -/
def DB.updateWhereId (db : DB) (id : Int) (f : User → Except SqlError User) :
    Except SqlError Result × DB :=
  match db.rows.find? (fun r => r.ID = id) with
  | none => (Except.ok { lastInsertId := 0, rowsAffected := 0 }, db)
  | some r =>
    match f r with
    | Except.error e => (Except.error e, db)
    | Except.ok r1 =>
      if r1 = r then (Except.ok { lastInsertId := 0, rowsAffected := 0 }, db)
      else if r1.ID ≠ r.ID ∧ db.rows.any (fun x => x.ID = r1.ID) then
        (Except.error (SqlError.other "Duplicate entry for key PRIMARY"), db)
      else
        (Except.ok { lastInsertId := 0, rowsAffected := 1 },
         { db with
           rows := db.rows.map (fun x => if x.ID = id then r1 else x),
           nextId := max db.nextId (r1.ID + 1) })

/-- Modelled from the spec: the full-column UPDATE of `UpdateUser`. -/
def DB.execUpdate (db : DB) (query : String)
    (firstName lastName email password : String) (age : Int) (id : Int) :
    Except SqlError Result × DB :=
  (db.issue query
    [Value.string firstName, Value.string lastName, Value.string email,
     Value.string password, Value.int age, Value.int id]).updateWhereId id
    (fun r => Except.ok { r with FirstName := firstName, LastName := lastName,
                                 Email := email, Password := password, Age := age })

/-- Modelled from the spec: `DELETE FROM users WHERE id = ?`. -/
def DB.execDelete (db : DB) (query : String) (id : Int) : Except SqlError Result × DB :=
  (Except.ok { lastInsertId := 0, rowsAffected := (db.rows.countP (fun r => r.ID = id) : Nat) },
   { db.issue query [Value.int id] with rows := db.rows.filter (fun r => r.ID ≠ id) })

/-- Columns of `users`. -/
inductive Column where
  | id
  | first_name
  | last_name
  | email
  | password
  | age
deriving DecidableEq, Repr

/-- ASCII lower-casing of an identifier. -/
def lowerAscii (s : String) : String :=
  String.mk (s.data.map Char.toLower)

/-- Modelled from the spec: the column an identifier of a SET clause names.
MySQL compares column names without regard to case; an identifier that is not
the bare name of a column is taken as unknown. -/
def Column.ofName (key : String) : Option Column :=
  let k := lowerAscii key
  if k = "id" then some Column.id
  else if k = "first_name" then some Column.first_name
  else if k = "last_name" then some Column.last_name
  else if k = "email" then some Column.email
  else if k = "password" then some Column.password
  else if k = "age" then some Column.age
  else none

/-- Modelled from the spec: a bound parameter stored into a text column. -/
def Value.toText : Value → Option String
  | Value.string s => some s
  | Value.float64 n => some (toString n)
  | Value.int i => some (toString i)
  | Value.bool b => some (if b then "1" else "0")
  | _ => none

/-- Modelled from the spec: a bound parameter stored into an integer column
(strict SQL mode: text that is not a decimal integer is refused). -/
def Value.toInteger : Value → Option Int
  | Value.float64 n => some n
  | Value.int i => some i
  | Value.bool b => some (if b then 1 else 0)
  | Value.string s => s.toInt?
  | _ => none

/-- Assignment `column = ?` on one row; `none` when the value is refused
(columns are NOT NULL, like the Go fields they are scanned into). -/
def User.assign (r : User) (c : Column) (v : Value) : Option User :=
  match c with
  | Column.id => v.toInteger.map (fun n => { r with ID := n })
  | Column.first_name => v.toText.map (fun s => { r with FirstName := s })
  | Column.last_name => v.toText.map (fun s => { r with LastName := s })
  | Column.email => v.toText.map (fun s => { r with Email := s })
  | Column.password => v.toText.map (fun s => { r with Password := s })
  | Column.age => v.toInteger.map (fun n => { r with Age := n })

/-- Assignments of a SET clause, applied left to right. -/
def User.assignAll (r : User) : List (Column × Value) → Option User
  | [] => some r
  | (c, v) :: rest => (r.assign c v).bind (fun r1 => r1.assignAll rest)

/-- Columns named by the keys of a SET clause; `none` when one is unknown. -/
def resolveColumns : List (String × Value) → Option (List (Column × Value))
  | [] => some []
  | (k, v) :: rest =>
    match Column.ofName k, resolveColumns rest with
    | some c, some cs => some ((c, v) :: cs)
    | _, _ => none

/-- Parameters `database/sql` cannot convert (slices and maps). -/
def Value.unsupported : Value → Bool
  | Value.slice => true
  | Value.map => true
  | _ => false

/-! ### Text of the statement `PatchUser` sends

`PatchUser` hands the database a statement text it has assembled and a
parameter list, nothing else.  The engine reads the text: it is split into
tokens, parsed as `UPDATE users SET c = v, ... WHERE id = v` and executed with
the parameters bound to the markers in order.  The fragment read is small:
words of letters, digits and underscores, unsigned integers, `=`, `,`, `?`,
blanks, and `#` comments.  A text outside it is not given a meaning (`none`).
-/

/-- Tokens of a statement text. -/
inductive Token where
  | word (s : String)
  | number (n : Nat)
  | marker
  | eq
  | comma
deriving DecidableEq, Repr

/-- Characters of a word: ASCII letters, digits, underscore. -/
def isWordChar (c : Char) : Bool :=
  c.isAlphanum || c = '_'

/-- Blank characters: space, tab, line feed, carriage return. -/
def isBlank (c : Char) : Bool :=
  c = ' ' || c.toNat = 9 || c.toNat = 10 || c.toNat = 13

/-- Value of a run of decimal digits. -/
def digitsValue (w : List Char) : Nat :=
  w.foldl (fun n c => 10 * n + (c.toNat - 48)) 0

/-- Token of a maximal run of word characters: an unsigned integer when it is
all digits, a word when it does not start with a digit; a run that starts with
a digit and is not all digits is not read. -/
def wordToken (w : List Char) : Option Token :=
  match w with
  | [] => none
  | c :: _ =>
    if c.isDigit then
      (if w.all Char.isDigit then some (Token.number (digitsValue w)) else none)
    else some (Token.word (String.mk w))

/-- Close the run of word characters gathered so far, if any, in front of the
tokens that follow. -/
def pushWord (w : List Char) (rest : Option (List Token)) : Option (List Token) :=
  match w with
  | [] => rest
  | _ :: _ =>
    match wordToken w, rest with
    | some t, some ts => some (t :: ts)
    | _, _ => none

/-- Modelled from the spec: the tokens of a statement text, MySQL's lexical
rules restricted to the fragment read.  The flag tells whether the position is
inside a `#` comment, which runs to the end of the line; `w` is the run of
word characters open at the position. -/
def lexFrom : Bool → List Char → List Char → Option (List Token)
  | _, w, [] => pushWord w (some [])
  | true, w, c :: cs =>
    if c.toNat = 0 then none
    else if c.toNat = 10 then lexFrom false w cs
    else lexFrom true w cs
  | false, w, c :: cs =>
    if isWordChar c then lexFrom false (w ++ [c]) cs
    else if isBlank c then pushWord w (lexFrom false [] cs)
    else if c = '=' then pushWord w ((lexFrom false [] cs).map (fun ts => Token.eq :: ts))
    else if c = ',' then pushWord w ((lexFrom false [] cs).map (fun ts => Token.comma :: ts))
    else if c = '?' then pushWord w ((lexFrom false [] cs).map (fun ts => Token.marker :: ts))
    else if c = '#' then pushWord w (lexFrom true [] cs)
    else none

/-- Tokens of a statement text. -/
def lexSql (query : String) : Option (List Token) :=
  lexFrom false [] query.data

/-- Number of `?` parameter markers of a statement text: the marker tokens,
so a `?` inside a comment is not counted. -/
def placeholders (query : String) : Option Nat :=
  (lexSql query).map (fun ts => ts.count Token.marker)

/-- Right-hand side of an assignment or comparison: a parameter marker or an
unsigned integer. -/
inductive Operand where
  | marker
  | literal (n : Nat)
deriving DecidableEq, Repr

/-- Operand a token stands for. -/
def Token.operand : Token → Option Operand
  | Token.marker => some Operand.marker
  | Token.number n => some (Operand.literal n)
  | _ => none

/-- Assignments `c = v` separated by commas, and the tokens after them. -/
def parseSets : List Token → Option (List (String × Operand) × List Token)
  | Token.word c :: Token.eq :: v :: Token.comma :: rest =>
    match v.operand, parseSets rest with
    | some e, some (sets, tail) => some ((c, e) :: sets, tail)
    | _, _ => none
  | Token.word c :: Token.eq :: v :: rest =>
    match v.operand with
    | some e => some ([(c, e)], rest)
    | none => none
  | _ => none

/-- Statement `UPDATE users SET sets WHERE whereColumn = whereOperand`. -/
structure UpdateStmt where
  sets : List (String × Operand)
  whereColumn : String
  whereOperand : Operand
deriving DecidableEq, Repr

/-- Modelled from the spec: a token list read as an UPDATE of `users` with a
`WHERE column = operand` clause; keywords are matched without regard to
case.  A word on the left of `=` is taken as a column name; whether MySQL
would refuse it as a reserved word is not decided here, since a word that is
not a column of `users` fails the statement either way. -/
def parseUpdate : List Token → Option UpdateStmt
  | Token.word u :: Token.word t :: Token.word s :: rest =>
    if lowerAscii u = "update" ∧ t = "users" ∧ lowerAscii s = "set" then
      match parseSets rest with
      | some (sets, [Token.word w, Token.word c, Token.eq, v]) =>
        if lowerAscii w = "where" then
          v.operand.map (fun e => { sets := sets, whereColumn := c, whereOperand := e })
        else none
      | _ => none
    else none
  | _ => none

/-- Parameters bound to the markers of the SET clause in order; integers of
the text stand for themselves.  Gives the assignments with their values and the
parameters left over; `none` when the parameters run out. -/
def bindSets : List (String × Operand) → List Value →
    Option (List (String × Value) × List Value)
  | [], args => some ([], args)
  | (c, Operand.literal n) :: rest, args =>
    (bindSets rest args).map (fun p => ((c, Value.int n) :: p.1, p.2))
  | (_, Operand.marker) :: _, [] => none
  | (c, Operand.marker) :: rest, a :: args =>
    (bindSets rest args).map (fun p => ((c, a) :: p.1, p.2))

/-- Parameters bound to all markers of a statement: the assignments with their
values and the value compared with in the WHERE clause; `none` when the number
of parameters is not the number of markers. -/
def bindStmt (st : UpdateStmt) (args : List Value) :
    Option (List (String × Value) × Value) :=
  match bindSets st.sets args with
  | none => none
  | some (sets, left) =>
    match st.whereOperand, left with
    | Operand.marker, [a] => some (sets, a)
    | Operand.literal n, [] => some (sets, Value.int n)
    | _, _ => none

/-- Modelled from the spec: `db.Exec(query, args...)` for the statement text
`PatchUser` assembles.  The outcome is computed from the text and the
parameters alone.  `none` when the text, or the comparison of its WHERE
clause, is outside the fragment read; otherwise the statement fails when a
parameter is of an unsupported type, when the parameters do not match the
markers in number, or when an assigned column is unknown, and else updates the
row whose id the WHERE clause names. -/
def DB.exec (db : DB) (query : String) (args : List Value) :
    Option (Except SqlError Result × DB) :=
  let db1 := db.issue query args
  match (lexSql query).bind parseUpdate with
  | none => none
  | some st =>
    if args.any Value.unsupported then
      some (Except.error (SqlError.other "unsupported type"), db1)
    else
      match bindStmt st args with
      | none => some (Except.error (SqlError.other "wrong number of arguments"), db1)
      | some (sets, w) =>
        match resolveColumns sets with
        | none => some (Except.error (SqlError.other "Unknown column"), db1)
        | some cs =>
          match Column.ofName st.whereColumn, w with
          | some Column.id, Value.int n =>
            some (db1.updateWhereId n (fun r =>
              match r.assignAll cs with
              | some r1 => Except.ok r1
              | none => Except.error (SqlError.other "Incorrect value")))
          | _, _ => none

/-! ## Handlers (`handlers/user.go`) -/

/-- `CreateUser` handles POST /users. -/
def CreateUser (db : DB) (body : Decoded User) : Response × DB :=
  if body.err then (httpError "invalid JSON" 400, db)
  else
    let u := body.val
    match db.queryEmailExists "SELECT EXISTS(SELECT 1 FROM users WHERE email=?)" u.Email with
    | (Except.error _, db1) => (httpError "db error" 500, db1)
    | (Except.ok found, db1) =>
      if found then (httpError "email already exists" 400, db1)
      else
        match db1.execInsert
            "INSERT INTO users (first_name, last_name, email, password, age) VALUES (?,?,?,?,?)"
            u.FirstName u.LastName u.Email u.Password u.Age with
        | (Except.error _, db2) => (httpError "insert failed" 500, db2)
        | (Except.ok res, db2) =>
          ({ status := 201, body := Body.json ({ u with ID := res.lastInsertId }).toJson }, db2)

/-- `GetAllUsers` handles GET /users. -/
def GetAllUsers (db : DB) : Response × DB :=
  match db.queryAll "SELECT id, first_name, last_name, email, password, age FROM users" with
  | (Except.error _, db1) => (httpError "db error" 500, db1)
  | (Except.ok rows, db1) =>
    let list := rows.foldl (fun l u => l.append u) (Slice.nil : Slice User)
    (okJson (encodeUsers list), db1)

/-- `GetUser` handles GET /users/{id}. -/
def GetUser (db : DB) (pid : PathId) : Response × DB :=
  let id := pid.val
  match db.queryById
      "SELECT id, first_name, last_name, email, password, age FROM users WHERE id=?" id with
  | (Except.error SqlError.ErrNoRows, db1) => (httpError "user not found" 404, db1)
  | (Except.error _, db1) => (httpError "db error" 500, db1)
  | (Except.ok u, db1) => (okJson u.toJson, db1)

/-- `UpdateUser` handles PUT /users/{id}. -/
def UpdateUser (db : DB) (pid : PathId) (body : Decoded User) : Response × DB :=
  let id := pid.val
  let u := { body.val with ID := id }
  match db.queryEmailExistsOther
      "SELECT EXISTS(SELECT 1 FROM users WHERE email=? AND id!=?)" u.Email id with
  | (scanned, db1) =>
    let found := match scanned with
      | Except.ok b => b
      | Except.error _ => false
    if found then (httpError "email already in use" 400, db1)
    else
      match db1.execUpdate
          "UPDATE users SET first_name=?, last_name=?, email=?, password=?, age=? WHERE id=?"
          u.FirstName u.LastName u.Email u.Password u.Age u.ID with
      | (Except.error _, db2) => (httpError "update failed" 500, db2)
      | (Except.ok res, db2) =>
        if res.rowsAffected = 0 then (httpError "no record updated" 400, db2)
        else (okJson (messageJson "updated"), db2)

/-- Steps 3 and 4 of `PatchUser`: the SET parts and the parameters gathered
over the mapping in its iteration order, then the id appended and the query
text formatted. -/
def patchStatement (upd : List (String × Value)) (id : Int) : String × List Value :=
  let acc := upd.foldl
    (fun (acc : List String × List Value) (kv : String × Value) =>
      (acc.1 ++ [kv.1 ++ " = ?"], acc.2 ++ [kv.2]))
    (([] : List String), ([] : List Value))
  let setParts := acc.1
  let args := acc.2 ++ [Value.int id]
  ("UPDATE users SET " ++ ", ".intercalate setParts ++ " WHERE id = ?", args)

/-- `PatchUser` handles PATCH /users/{id}.  The mapping is given as the list
of its entries in the order the `range` loop visits them.  The result is `none`
when the statement text built is outside the fragment the engine reads. -/
def PatchUser (db : DB) (pid : PathId) (body : Decoded (List (String × Value))) :
    Option (Response × DB) :=
  let id := pid.val
  if body.err then some (httpError "invalid JSON" 400, db)
  else
    let upd := body.val
    if upd.length = 0 then some (httpError "nothing to update" 400, db)
    else
      let checked : Bool × DB :=
        match upd.lookup "email" with
        | some (Value.string emailVal) =>
          match db.queryEmailExistsOther
              "SELECT EXISTS(SELECT 1 FROM users WHERE email=? AND id!=?)" emailVal id with
          | (Except.ok b, db1) => (b, db1)
          | (Except.error _, db1) => (false, db1)
        | _ => (false, db)
      if checked.1 then some (httpError "email already exists" 400, checked.2)
      else
        let stmt := patchStatement upd id
        match checked.2.exec stmt.1 stmt.2 with
        | none => none
        | some (Except.error _, db2) => some (httpError "patch failed" 500, db2)
        | some (Except.ok res, db2) =>
          if res.rowsAffected = 0 then some (httpError "no record patched" 400, db2)
          else some (okJson (messageJson "patched"), db2)

/-- `DeleteUser` handles DELETE /users/{id}.  `RowsAffected` of the MySQL
driver returns no error, so the branch "cannot get affected rows" is never
taken and the count is read directly. -/
def DeleteUser (db : DB) (pid : PathId) : Response × DB :=
  if pid.err then (httpError "invalid user id" 400, db)
  else
    match db.execDelete "DELETE FROM users WHERE id = ?" pid.val with
    | (Except.error _, db1) => (httpError "delete failed" 500, db1)
    | (Except.ok res, db1) =>
      if res.rowsAffected = 0 then (httpError "user not found" 404, db1)
      else (okJson (messageJson "User deleted successfully"), db1)

/-! ## Sample data -/

/-- User A of the examples. -/
def userA : User :=
  { ID := 1, FirstName := "Ann", LastName := "Lee", Email := "a@x.com", Password := "x", Age := 30 }

/-- User B of the examples. -/
def userB : User :=
  { ID := 2, FirstName := "Bob", LastName := "Ray", Email := "b@x.com", Password := "y", Age := 41 }

/-- Table holding A and B. -/
def dbAB : DB :=
  { rows := [userA, userB], nextId := 3, log := [] }

/-- Table holding A and a user whose email is the text `5`. -/
def dbA5 : DB :=
  { rows := [userA, { userB with Email := "5" }], nextId := 3, log := [] }

/-- Empty table. -/
def dbEmpty : DB :=
  { rows := [], nextId := 1, log := [] }

/-- A key that is one bare word: letters, digits and underscores only, not
empty and not starting with a digit. -/
def isBareWord (k : String) : Bool :=
  match k.data with
  | [] => false
  | c :: cs => !c.isDigit && (c :: cs).all isWordChar

/-- Characters of the SET parts after the first, each behind its separator. -/
def sepParts : List String → List Char
  | [] => []
  | p :: ps => ", ".data ++ p.data ++ sepParts ps

/-- Tokens of the assignments after the first: comma, column, `=`, marker. -/
def moreSetTokens : List String → List Token
  | [] => []
  | k :: ks => Token.comma :: Token.word k :: Token.eq :: Token.marker :: moreSetTokens ks

/-- Tokens of `UPDATE users SET k1 = ?, ..., kn = ? WHERE id = ?`. -/
def patchTokens (keys : List String) : List Token :=
  match keys with
  | [] => []
  | k :: ks =>
    [Token.word "UPDATE", Token.word "users", Token.word "SET"]
      ++ (Token.word k :: Token.eq :: Token.marker :: moreSetTokens ks)
      ++ [Token.word "WHERE", Token.word "id", Token.eq, Token.marker]

/-! ## Theorems -/

theorem find_id_none {rows : List User} {id : Int} (h : ∀ r ∈ rows, r.ID ≠ id) :
    rows.find? (fun r => decide (r.ID = id)) = none := by
  simp only [List.find?_eq_none, decide_eq_true_eq]
  exact h

theorem no_other_holder {rows : List User} {e : String} {id : Int}
    (h : ∀ r ∈ rows, r.Email ≠ e) :
    ¬ ∃ x ∈ rows, x.Email = e ∧ ¬ x.ID = id := by
  rintro ⟨x, hx, he, _⟩
  exact h x hx he

theorem pk_id_ne {rows : List User} (hpk : PrimaryKey rows) {a b : User}
    (ha : a ∈ rows) (hb : b ∈ rows) (hab : a ≠ b) : a.ID ≠ b.ID := by
  intro h
  exact hab (List.inj_on_of_nodup_map hpk ha hb h)

theorem find_id_append_new (rows : List User) (v : User) (h : ∀ r ∈ rows, r.ID ≠ v.ID) :
    (rows ++ [v]).find? (fun r => decide (r.ID = v.ID)) = some v := by
  simp [List.find?_append, find_id_none h]

/-- What `CreateUser` does when no row holds the email of the body. -/
theorem CreateUser_fresh (db : DB) (u : User) (hwf : db.WF)
    (hfresh : ∀ r ∈ db.rows, r.Email ≠ u.Email) :
    CreateUser db { val := u, err := false } =
      ({ status := 201, body := Body.json ({ u with ID := db.nextId }).toJson },
       { rows := db.rows ++ [{ u with ID := db.nextId }],
         nextId := db.nextId + 1,
         log := db.log ++
           [{ query := "SELECT EXISTS(SELECT 1 FROM users WHERE email=?)",
              args := [Value.string u.Email] },
            { query :=
                "INSERT INTO users (first_name, last_name, email, password, age) VALUES (?,?,?,?,?)",
              args := [Value.string u.FirstName, Value.string u.LastName, Value.string u.Email,
                       Value.string u.Password, Value.int u.Age] }] }) := by
  have h1 : ¬ ∃ x ∈ db.rows, x.Email = u.Email := by
    rintro ⟨x, hx, he⟩
    exact hfresh x hx he
  have h2 : ¬ ∃ x ∈ db.rows, x.ID = db.nextId := by
    rintro ⟨x, hx, he⟩
    exact absurd he (ne_of_lt (hwf.2 x hx))
  simp [CreateUser, DB.queryEmailExists, DB.execInsert, DB.issue, h1, h2]

/-- What `CreateUser` does when some row holds the email of the body. -/
theorem CreateUser_taken (db : DB) (u : User) (h : ∃ x ∈ db.rows, x.Email = u.Email) :
    CreateUser db { val := u, err := false } =
      (httpError "email already exists" 400,
       db.issue "SELECT EXISTS(SELECT 1 FROM users WHERE email=?)" [Value.string u.Email]) := by
  simp [CreateUser, DB.queryEmailExists, DB.issue, h]

theorem find_id_of_mem {rows : List User} (hpk : PrimaryKey rows) {u : User} (hu : u ∈ rows) :
    rows.find? (fun r => decide (r.ID = u.ID)) = some u := by
  induction rows with
  | nil => cases hu
  | cons x xs ih =>
    have hnd : x.ID ∉ xs.map User.ID ∧ (xs.map User.ID).Nodup := List.nodup_cons.mp hpk
    by_cases hx : x = u
    · subst hx
      simp
    · have hmem : u ∈ xs := by
        rcases List.mem_cons.mp hu with h | h
        · exact absurd h.symm hx
        · exact h
      have hid : x.ID ≠ u.ID := by
        intro h
        exact hnd.1 (h ▸ List.mem_map_of_mem User.ID hmem)
      simp [List.find?_cons, hid, ih hnd.2 hmem]

theorem filter_id_eq_erase {rows : List User} (hpk : PrimaryKey rows) {u : User}
    (hu : u ∈ rows) :
    rows.filter (fun r => decide (r.ID ≠ u.ID)) = rows.erase u := by
  have hnd : rows.Nodup := List.Nodup.of_map User.ID hpk
  rw [List.Nodup.erase_eq_filter hnd u]
  apply List.filter_congr
  intro x hx
  by_cases hxu : x = u
  · subst hxu
    simp
  · have hid : x.ID ≠ u.ID := pk_id_ne hpk hx hu hxu
    simp [hid, hxu]

theorem map_id_eq_map_row {rows : List User} (hpk : PrimaryKey rows) {u : User}
    (hu : u ∈ rows) (v : User) :
    rows.map (fun x => if x.ID = u.ID then v else x) =
      rows.map (fun x => if x = u then v else x) := by
  apply List.map_congr_left
  intro x hx
  by_cases hxu : x = u
  · subst hxu
    simp
  · have hid : x.ID ≠ u.ID := pk_id_ne hpk hx hu hxu
    simp [hid, hxu]

theorem patch_foldl (upd : List (String × Value)) (acc : List String × List Value) :
    upd.foldl
      (fun (acc : List String × List Value) (kv : String × Value) =>
        (acc.1 ++ [kv.1 ++ " = ?"], acc.2 ++ [kv.2])) acc =
      (acc.1 ++ upd.map (fun kv => kv.1 ++ " = ?"), acc.2 ++ upd.map Prod.snd) := by
  induction upd generalizing acc with
  | nil => simp
  | cons kv rest ih => simp [List.foldl_cons, ih]

theorem patchStatement_eq (upd : List (String × Value)) (id : Int) :
    patchStatement upd id =
      ("UPDATE users SET " ++ ", ".intercalate (upd.map (fun kv => kv.1 ++ " = ?"))
        ++ " WHERE id = ?",
       upd.map Prod.snd ++ [Value.int id]) := by
  simp [patchStatement, patch_foldl]

theorem updateWhereId_rows (db : DB) (id : Int) (f : User → Except SqlError User) :
    (db.updateWhereId id f).2.rows = db.rows ∨
    ∃ r r1, r ∈ db.rows ∧ f r = Except.ok r1 ∧
      (db.updateWhereId id f).2.rows = db.rows.map (fun x => if x.ID = id then r1 else x) := by
  unfold DB.updateWhereId
  split
  · exact Or.inl rfl
  · rename_i r hfind
    split
    · exact Or.inl rfl
    · rename_i r1 hf
      split
      · exact Or.inl rfl
      · split
        · exact Or.inl rfl
        · exact Or.inr ⟨r, r1, List.mem_of_find?_eq_some hfind, hf, rfl⟩

theorem unique_map_replace {rows : List User} (hpk : PrimaryKey rows) (hu : EmailUnique rows)
    (id : Int) (r1 : User) (hfree : ¬ ∃ x ∈ rows, x.Email = r1.Email ∧ ¬ x.ID = id) :
    EmailUnique (rows.map (fun x => if x.ID = id then r1 else x)) := by
  unfold EmailUnique at hu ⊢
  unfold PrimaryKey at hpk
  rw [List.pairwise_map]
  have hids : rows.Pairwise (fun a b => a.ID ≠ b.ID) := List.pairwise_map.mp hpk
  refine (hu.and hids).imp_of_mem ?_
  intro a b ha hb hab
  obtain ⟨hem, hid⟩ := hab
  by_cases h1 : a.ID = id
  · have h2 : ¬ b.ID = id := fun h => hid (h1.trans h.symm)
    simp only [h1, h2, if_true, if_false]
    intro heq
    exact hfree ⟨b, hb, heq.symm, h2⟩
  · by_cases h2 : b.ID = id
    · simp only [h1, h2, if_true, if_false]
      intro heq
      exact hfree ⟨a, ha, heq, h1⟩
    · simp only [h1, h2, if_false]
      exact hem

/-- `CreateUser` keeps the emails of the table pairwise different. -/
theorem CreateUser_keeps_unique (db : DB) (body : Decoded User) (hu : EmailUnique db.rows) :
    EmailUnique (CreateUser db body).2.rows := by
  unfold CreateUser
  by_cases herr : body.err = true
  · simp [herr, hu]
  · by_cases hany : ∃ x ∈ db.rows, x.Email = body.val.Email
    · simp [herr, DB.queryEmailExists, DB.issue, hany, hu]
    · by_cases hdup : ∃ x ∈ db.rows, x.ID = db.nextId
      · simp [herr, DB.queryEmailExists, DB.execInsert, DB.issue, hany, hdup, hu]
      · simp only [herr, DB.queryEmailExists, DB.execInsert, DB.issue]
        simp [hany, hdup]
        unfold EmailUnique at hu ⊢
        rw [List.pairwise_append]
        refine ⟨hu, List.pairwise_singleton _ _, ?_⟩
        intro a ha b hb
        rw [List.mem_singleton] at hb
        subst hb
        intro heq
        exact hany ⟨a, ha, heq⟩

/-- `UpdateUser` keeps the emails of a table with primary key `id` pairwise
different. -/
theorem UpdateUser_keeps_unique (db : DB) (pid : PathId) (body : Decoded User)
    (hpk : PrimaryKey db.rows) (hu : EmailUnique db.rows) :
    EmailUnique (UpdateUser db pid body).2.rows := by
  unfold UpdateUser
  by_cases hany : ∃ x ∈ db.rows, x.Email = body.val.Email ∧ ¬ x.ID = pid.val
  · simp [DB.queryEmailExistsOther, DB.issue, hany, hu]
  · simp only [DB.queryEmailExistsOther, DB.execUpdate]
    simp only [List.any_eq_true, decide_eq_true_eq, hany, if_false, ne_eq]
    generalize hdb : (db.issue "SELECT EXISTS(SELECT 1 FROM users WHERE email=? AND id!=?)"
      [Value.string body.val.Email, Value.int pid.val]).issue
      "UPDATE users SET first_name=?, last_name=?, email=?, password=?, age=? WHERE id=?"
      [Value.string body.val.FirstName, Value.string body.val.LastName,
       Value.string body.val.Email, Value.string body.val.Password,
       Value.int body.val.Age, Value.int pid.val] = db2
    have hrows : db2.rows = db.rows := by rw [← hdb]; rfl
    have hcases := updateWhereId_rows db2 pid.val
      (fun r => Except.ok { r with FirstName := body.val.FirstName, LastName := body.val.LastName,
                                   Email := body.val.Email, Password := body.val.Password,
                                   Age := body.val.Age })
    have hfin : EmailUnique (db2.updateWhereId pid.val
      (fun r => Except.ok { r with FirstName := body.val.FirstName, LastName := body.val.LastName,
                                   Email := body.val.Email, Password := body.val.Password,
                                   Age := body.val.Age })).2.rows := by
      rcases hcases with h | ⟨r, r1, _, hf, h⟩
      · rw [h, hrows]
        exact hu
      · rw [h, hrows]
        have hr1 : r1.Email = body.val.Email := by
          injection hf with hf
          rw [← hf]
        exact unique_map_replace hpk hu pid.val r1 (by rw [hr1]; exact hany)
    generalize db2.updateWhereId pid.val
      (fun r => Except.ok { r with FirstName := body.val.FirstName, LastName := body.val.LastName,
                                   Email := body.val.Email, Password := body.val.Password,
                                   Age := body.val.Age }) = out at hfin ⊢
    obtain ⟨res, db3⟩ := out
    cases res with
    | error _ => exact hfin
    | ok r =>
      simp only
      split <;> exact hfin

/-- `DeleteUser` keeps the emails of the table pairwise different. -/
theorem DeleteUser_keeps_unique (db : DB) (pid : PathId) (hu : EmailUnique db.rows) :
    EmailUnique (DeleteUser db pid).2.rows := by
  unfold DeleteUser
  cases herr : pid.err with
  | true => exact hu
  | false =>
    have hfil : EmailUnique (db.rows.filter (fun r => decide (r.ID ≠ pid.val))) :=
      List.Pairwise.filter _ hu
    simp only [DB.execDelete, DB.issue, Bool.false_eq_true, if_false]
    split <;> exact hfil

theorem updateWhereId_log (db : DB) (id : Int) (f : User → Except SqlError User) :
    (db.updateWhereId id f).2.log = db.log := by
  unfold DB.updateWhereId
  split
  · rfl
  · split
    · rfl
    · split
      · rfl
      · split <;> rfl

theorem exec_log (db : DB) (query : String) (args : List Value)
    (out : Except SqlError Result × DB) (h : db.exec query args = some out) :
    out.2.log = db.log ++ [{ query := query, args := args }] := by
  unfold DB.exec at h
  simp only [] at h
  split at h
  · cases h
  · split at h
    · injection h with h
      rw [← h]
      rfl
    · split at h
      · injection h with h
        rw [← h]
        rfl
      · split at h
        · injection h with h
          rw [← h]
          rfl
        · split at h
          · injection h with h
            rw [← h, updateWhereId_log]
            rfl
          · cases h

/-- Unless the duplicate check answers "email already exists", the last
statement `PatchUser` issues on a non-empty mapping is the one
`patchStatement` builds. -/
theorem PatchUser_issues (db : DB) (pid : PathId) (upd : List (String × Value))
    (out : Response × DB) (hne : upd ≠ [])
    (hout : PatchUser db pid { val := upd, err := false } = some out)
    (hnot : out.1.body ≠ Body.text "email already exists") :
    out.2.log.getLast? =
      some { query := (patchStatement upd pid.val).1, args := (patchStatement upd pid.val).2 } := by
  have hlen : ¬ upd.length = 0 := fun h => hne (List.length_eq_zero.mp h)
  unfold PatchUser at hout
  simp only [hlen, Bool.false_eq_true, if_false] at hout
  generalize (match List.lookup "email" upd with
    | some (Value.string emailVal) =>
      match db.queryEmailExistsOther
          "SELECT EXISTS(SELECT 1 FROM users WHERE email=? AND id!=?)" emailVal pid.val with
      | (Except.ok b, db1) => (b, db1)
      | (Except.error _, db1) => (false, db1)
    | _ => (false, db)) = checked at hout
  obtain ⟨c, db1⟩ := checked
  cases c with
  | true =>
    simp only [if_true] at hout
    injection hout with hout
    rw [← hout] at hnot
    exact absurd rfl hnot
  | false =>
    simp only [Bool.false_eq_true, if_false] at hout
    cases hx : db1.exec (patchStatement upd pid.val).1 (patchStatement upd pid.val).2 with
    | none =>
      rw [hx] at hout
      cases hout
    | some r =>
      have hl := exec_log db1 _ _ r hx
      rw [hx] at hout
      obtain ⟨res, db2⟩ := r
      simp only at hl
      cases res with
      | error _ =>
        simp only at hout
        injection hout with hout
        rw [← hout]
        simp [hl]
      | ok res =>
        simp only at hout
        split at hout <;>
        · injection hout with hout
          rw [← hout]
          simp [hl]

theorem foldl_append_of (rows xs : List User) :
    rows.foldl (fun l u => l.append u) (Slice.of xs) = Slice.of (xs ++ rows) := by
  induction rows generalizing xs with
  | nil => simp
  | cons r rest ih =>
    rw [List.foldl_cons]
    show List.foldl (fun l u => l.append u) (Slice.of (xs ++ [r])) rest = _
    rw [ih]
    simp

/-- On a table with at least one row `GetAllUsers` answers 200 with the array
of the encoded rows, in row order. -/
theorem GetAllUsers_rows (db : DB) (h : db.rows ≠ []) :
    (GetAllUsers db).1 = okJson (Json.arr (db.rows.map User.toJson)) := by
  obtain ⟨rows, nextId, log⟩ := db
  cases rows with
  | nil => exact absurd rfl h
  | cons r rest =>
    have hfold : List.foldl (fun l u => l.append u) (Slice.nil : Slice User) (r :: rest) =
        Slice.of (r :: rest) := by
      rw [List.foldl_cons]
      show List.foldl (fun l u => l.append u) (Slice.of [r]) rest = _
      rw [foldl_append_of]
      rfl
    simp only [GetAllUsers, DB.queryAll, hfold, encodeUsers]

theorem lex_word_run (w acc rest : List Char) (h : ∀ c ∈ w, isWordChar c = true) :
    lexFrom false acc (w ++ rest) = lexFrom false (acc ++ w) rest := by
  induction w generalizing acc with
  | nil => simp
  | cons c cs ih =>
    have hc : isWordChar c = true := h c (List.mem_cons_self _ _)
    have hcs : ∀ x ∈ cs, isWordChar x = true := fun x hx => h x (List.mem_cons_of_mem _ hx)
    rw [List.cons_append, lexFrom, if_pos hc, ih _ hcs]
    simp

theorem bare_chars (k : String) (h : isBareWord k = true) :
    ∀ c ∈ k.data, isWordChar c = true := by
  unfold isBareWord at h
  split at h
  · cases h
  · rename_i c cs hk
    rw [hk]
    simp only [Bool.and_eq_true, List.all_eq_true] at h
    exact h.2

theorem pushWord_bare (k : String) (h : isBareWord k = true) (r : Option (List Token)) :
    pushWord k.data r = r.map (fun ts => Token.word k :: ts) := by
  obtain ⟨w⟩ := k
  unfold isBareWord at h
  cases w with
  | nil => cases h
  | cons c cs =>
    simp only [Bool.and_eq_true, Bool.not_eq_true'] at h
    cases r with
    | none => simp [pushWord, wordToken]
    | some ts => simp [pushWord, wordToken, h.1]

theorem lex_bare_blank (k : String) (h : isBareWord k = true) (tail : List Char) :
    lexFrom false [] (k.data ++ ' ' :: tail) =
      (lexFrom false [] tail).map (fun ts => Token.word k :: ts) := by
  have h1 : isWordChar ' ' = false := by decide
  have h2 : isBlank ' ' = true := by decide
  rw [lex_word_run _ _ _ (bare_chars k h), List.nil_append, lexFrom, h1, h2]
  simp only [Bool.false_eq_true, if_false, if_true]
  exact pushWord_bare k h _

theorem lex_assign_marker (tail : List Char) :
    lexFrom false [] ('=' :: ' ' :: '?' :: tail) =
      (lexFrom false [] tail).map (fun ts => Token.eq :: Token.marker :: ts) := by
  have e1 : isWordChar '=' = false := by decide
  have e2 : isBlank '=' = false := by decide
  have b1 : isWordChar ' ' = false := by decide
  have b2 : isBlank ' ' = true := by decide
  have q1 : isWordChar '?' = false := by decide
  have q2 : isBlank '?' = false := by decide
  have q3 : ¬ ('?' = '=') := by decide
  have q4 : ¬ ('?' = ',') := by decide
  rw [lexFrom, e1, e2]
  simp only [Bool.false_eq_true, if_false, if_true, pushWord]
  rw [lexFrom, b1, b2]
  simp only [Bool.false_eq_true, if_false, if_true, pushWord]
  rw [lexFrom, q1, q2]
  simp only [Bool.false_eq_true, if_false, if_true, pushWord, q3, q4]
  cases lexFrom false [] tail <;> rfl

theorem lex_part (k : String) (h : isBareWord k = true) (tail : List Char) :
    lexFrom false [] ((k ++ " = ?").data ++ tail) =
      (lexFrom false [] tail).map
        (fun ts => Token.word k :: Token.eq :: Token.marker :: ts) := by
  have hd : (k ++ " = ?").data ++ tail = k.data ++ ' ' :: ('=' :: ' ' :: '?' :: tail) := by
    rw [String.data_append]
    show k.data ++ [' ', '=', ' ', '?'] ++ tail = _
    simp
  rw [hd, lex_bare_blank k h, lex_assign_marker]
  cases lexFrom false [] tail <;> rfl

theorem lex_sep (tail : List Char) :
    lexFrom false [] (',' :: ' ' :: tail) =
      (lexFrom false [] tail).map (fun ts => Token.comma :: ts) := by
  have c1 : isWordChar ',' = false := by decide
  have c2 : isBlank ',' = false := by decide
  have c3 : ¬ (',' = '=') := by decide
  have b1 : isWordChar ' ' = false := by decide
  have b2 : isBlank ' ' = true := by decide
  rw [lexFrom, c1, c2]
  simp only [Bool.false_eq_true, if_false, if_true, pushWord, c3]
  rw [lexFrom, b1, b2]
  simp only [Bool.false_eq_true, if_false, if_true, pushWord]

theorem lex_more (keys : List String) (h : ∀ k ∈ keys, isBareWord k = true)
    (tail : List Char) :
    lexFrom false [] (sepParts (keys.map (fun k => k ++ " = ?")) ++ tail) =
      (lexFrom false [] tail).map (fun ts => moreSetTokens keys ++ ts) := by
  induction keys with
  | nil => simp [sepParts, moreSetTokens]
  | cons k ks ih =>
    have hk : isBareWord k = true := h k (List.mem_cons_self _ _)
    have hks : ∀ x ∈ ks, isBareWord x = true := fun x hx => h x (List.mem_cons_of_mem _ hx)
    have hd : sepParts ((k :: ks).map (fun k => k ++ " = ?")) ++ tail =
        ',' :: ' ' :: ((k ++ " = ?").data ++
          (sepParts (ks.map (fun k => k ++ " = ?")) ++ tail)) := by
      simp only [List.map_cons, sepParts]
      show ([',', ' '] ++ (k ++ " = ?").data ++ _) ++ tail = _
      simp
    rw [hd, lex_sep, lex_part k hk, ih hks]
    cases lexFrom false [] tail <;> simp [moreSetTokens]

theorem go_data (parts : List String) (acc : String) :
    (String.intercalate.go acc ", " parts).data = acc.data ++ sepParts parts := by
  induction parts generalizing acc with
  | nil => simp [String.intercalate.go, sepParts]
  | cons p ps ih =>
    simp [String.intercalate.go, ih, sepParts, String.data_append, List.append_assoc]

theorem lex_patchStatement (k : String) (ks : List String)
    (h : ∀ x ∈ k :: ks, isBareWord x = true) :
    lexSql ("UPDATE users SET " ++ ", ".intercalate ((k :: ks).map (fun k => k ++ " = ?"))
        ++ " WHERE id = ?") = some (patchTokens (k :: ks)) := by
  have hk : isBareWord k = true := h k (List.mem_cons_self _ _)
  have hks : ∀ x ∈ ks, isBareWord x = true := fun x hx => h x (List.mem_cons_of_mem _ hx)
  have htail : lexFrom false [] " WHERE id = ?".data =
      some [Token.word "WHERE", Token.word "id", Token.eq, Token.marker] := by decide
  have hd : ("UPDATE users SET " ++ ", ".intercalate ((k :: ks).map (fun k => k ++ " = ?"))
        ++ " WHERE id = ?").data =
      "UPDATE".data ++ ' ' :: ("users".data ++ ' ' :: ("SET".data ++ ' ' ::
        ((k ++ " = ?").data ++ (sepParts (ks.map (fun k => k ++ " = ?")) ++
          " WHERE id = ?".data)))) := by
    simp only [String.data_append, List.map_cons, String.intercalate, go_data]
    show ['U', 'P', 'D', 'A', 'T', 'E', ' ', 'u', 's', 'e', 'r', 's', ' ', 'S', 'E', 'T', ' ']
      ++ _ ++ _ = _
    simp
  unfold lexSql
  rw [hd, lex_bare_blank "UPDATE" (by decide), lex_bare_blank "users" (by decide),
    lex_bare_blank "SET" (by decide), lex_part k hk, lex_more ks hks, htail]
  simp [patchTokens]

theorem parseSets_patch (k : String) (ks : List String) (tail : List Token)
    (htail : ∀ rest, tail ≠ Token.comma :: rest) :
    parseSets (Token.word k :: Token.eq :: Token.marker :: (moreSetTokens ks ++ tail)) =
      some ((k, Operand.marker) :: ks.map (fun x => (x, Operand.marker)), tail) := by
  induction ks generalizing k with
  | nil =>
    cases tail with
    | nil => simp [moreSetTokens, parseSets, Token.operand]
    | cons t ts =>
      cases t with
      | comma => exact absurd rfl (htail ts)
      | _ => simp [moreSetTokens, parseSets, Token.operand]
  | cons k2 ks ih =>
    simp only [moreSetTokens, List.cons_append]
    rw [parseSets, ih k2]
    simp [Token.operand]

theorem parse_patchTokens (k : String) (ks : List String) :
    parseUpdate (patchTokens (k :: ks)) =
      some { sets := (k :: ks).map (fun x => (x, Operand.marker)),
             whereColumn := "id", whereOperand := Operand.marker } := by
  have h1 : lowerAscii "UPDATE" = "update" := by decide
  have h2 : lowerAscii "SET" = "set" := by decide
  have h3 : lowerAscii "WHERE" = "where" := by decide
  have hp := parseSets_patch k ks
    [Token.word "WHERE", Token.word "id", Token.eq, Token.marker]
    (fun rest h => by cases h)
  simp only [patchTokens, List.cons_append, List.nil_append, List.append_assoc] at hp ⊢
  rw [parseUpdate]
  simp only [h1, h2, true_and, and_self, if_true]
  rw [hp]
  simp [h3, Token.operand]

theorem bindSets_patch (upd : List (String × Value)) (left : List Value) :
    bindSets (upd.map (fun kv => (kv.1, Operand.marker))) (upd.map Prod.snd ++ left) =
      some (upd, left) := by
  induction upd with
  | nil => simp [bindSets]
  | cons kv rest ih =>
    obtain ⟨k, v⟩ := kv
    simp [bindSets, ih]

theorem bindStmt_patch (upd : List (String × Value)) (id : Int) :
    bindStmt { sets := upd.map (fun kv => (kv.1, Operand.marker)),
               whereColumn := "id", whereOperand := Operand.marker }
        (upd.map Prod.snd ++ [Value.int id]) =
      some (upd, Value.int id) := by
  simp [bindStmt, bindSets_patch]

theorem count_more (ks : List String) :
    (moreSetTokens ks).count Token.marker = ks.length := by
  induction ks with
  | nil => rfl
  | cons k ks ih => simp [moreSetTokens, List.count_cons, ih]

theorem count_patchTokens (k : String) (ks : List String) :
    (patchTokens (k :: ks)).count Token.marker = (k :: ks).length + 1 := by
  simp [patchTokens, List.count_cons, List.count_append, count_more]

/-- For bare-word keys the statement text of `PatchUser` is read as the
assignments it was built from: the engine assigns each key its value on the
row of the path id. -/
theorem exec_patchStatement (db : DB) (upd : List (String × Value)) (id : Int)
    (hne : upd ≠ []) (hkeys : ∀ kv ∈ upd, isBareWord kv.1 = true) :
    db.exec (patchStatement upd id).1 (patchStatement upd id).2 =
      some (if (patchStatement upd id).2.any Value.unsupported then
          (Except.error (SqlError.other "unsupported type"),
           db.issue (patchStatement upd id).1 (patchStatement upd id).2)
        else
          match resolveColumns upd with
          | none => (Except.error (SqlError.other "Unknown column"),
                     db.issue (patchStatement upd id).1 (patchStatement upd id).2)
          | some cs =>
            (db.issue (patchStatement upd id).1 (patchStatement upd id).2).updateWhereId id
              (fun r =>
                match r.assignAll cs with
                | some r1 => Except.ok r1
                | none => Except.error (SqlError.other "Incorrect value"))) := by
  cases upd with
  | nil => exact absurd rfl hne
  | cons kv rest =>
    have hb : ∀ x ∈ kv.1 :: rest.map Prod.fst, isBareWord x = true := by
      intro x hx
      rcases List.mem_cons.mp hx with h | h
      · rw [h]
        exact hkeys kv (List.mem_cons_self _ _)
      · obtain ⟨y, hy, hxy⟩ := List.mem_map.mp h
        rw [← hxy]
        exact hkeys y (List.mem_cons_of_mem _ hy)
    have hlex := lex_patchStatement kv.1 (rest.map Prod.fst) hb
    have hparse := parse_patchTokens kv.1 (rest.map Prod.fst)
    have hbind := bindStmt_patch (kv :: rest) id
    have hcol : Column.ofName "id" = some Column.id := by decide
    rw [patchStatement_eq]
    simp only [List.map_cons, List.map_map, Function.comp_def] at hlex hparse hbind ⊢
    have hread := Option.bind_eq_some.mpr ⟨_, hlex, hparse⟩
    unfold DB.exec
    simp only [hread, hbind, hcol]
    split
    · rfl
    · split <;> rfl

theorem decodeUser_toJson (u : User) : decodeUser u.toJson = u := by
  by_cases hp : u.Password = ""
  · simp [decodeUser, User.toJson, Json.member, Json.readInt, Json.readString, List.lookup, hp]
    rw [← hp]
  · simp [decodeUser, User.toJson, Json.member, Json.readInt, Json.readString, List.lookup, hp]

/-- C9: a PATCH whose body is the empty JSON object is answered 400 "nothing to
update"; the database value is returned as it was, so its rows are unchanged
and no statement was issued. -/
theorem PatchUser_empty_mapping (db : DB) (pid : PathId) :
    PatchUser db pid { val := [], err := false } =
      some ({ status := 400, body := Body.text "nothing to update" }, db) ∧
    (PatchUser db pid { val := [], err := false }).map (fun out => out.1.status) = some 400 ∧
    (PatchUser db pid { val := [], err := false }).map (fun out => out.2.rows) = some db.rows ∧
    (PatchUser db pid { val := [], err := false }).map (fun out => out.2.log) = some db.log := by
  refine ⟨rfl, rfl, rfl, rfl⟩

/-- C7 (as the code behaves): on an empty table `GetAllUsers` answers 200 with
the JSON value `null`, not the empty array, because the nil slice it declared
is never appended to. -/
theorem GetAllUsers_empty_table_null (nextId : Int) (log : List Stmt) :
    (GetAllUsers { rows := [], nextId := nextId, log := log }).1.status = 200 ∧
    (GetAllUsers { rows := [], nextId := nextId, log := log }).1.body = Body.json Json.null ∧
    (GetAllUsers { rows := [], nextId := nextId, log := log }).1.body ≠ Body.json (Json.arr []) := by
  refine ⟨rfl, rfl, ?_⟩
  intro h
  cases h

/-- C1 (as the code behaves): on the table holding A (a@x.com) and B (b@x.com),
a PATCH on A with body `EMAIL: "b@x.com"` skips the duplicate check (the only
statement issued is the UPDATE), is answered 200 "patched", and leaves two
records with the email b@x.com. -/
theorem PatchUser_duplicates_email :
    EmailUnique dbAB.rows ∧ dbAB.WF ∧
    PatchUser dbAB { val := 1, err := false }
        { val := [("EMAIL", Value.string "b@x.com")], err := false } =
      some ({ status := 200, body := Body.json (Json.obj [("message", Json.str "patched")]) },
            { rows := [{ userA with Email := "b@x.com" }, userB],
              nextId := 3,
              log := [{ query := "UPDATE users SET EMAIL = ? WHERE id = ?",
                        args := [Value.string "b@x.com", Value.int 1] }] }) ∧
    ¬ EmailUnique [{ userA with Email := "b@x.com" }, userB] := by
  refine ⟨by decide, by decide, rfl, by decide⟩

/-- The duplicate check of `PatchUser` is also skipped for an `email` entry
that is not a string: the number 5 is stored as the text `5`, which another
record already holds. -/
theorem PatchUser_number_email_duplicates :
    EmailUnique dbA5.rows ∧
    PatchUser dbA5 { val := 1, err := false }
        { val := [("email", Value.float64 5)], err := false } =
      some ({ status := 200, body := Body.json (Json.obj [("message", Json.str "patched")]) },
            { rows := [{ userA with Email := "5" }, { userB with Email := "5" }],
              nextId := 3,
              log := [{ query := "UPDATE users SET email = ? WHERE id = ?",
                        args := [Value.float64 5, Value.int 1] }] }) ∧
    ¬ EmailUnique [{ userA with Email := "5" }, { userB with Email := "5" }] := by
  refine ⟨by decide, rfl, by decide⟩

/-- C5 (as stated, refuted): on the table of A and B, a PUT on the unused id 99
whose body carries A's email is answered "email already in use", not "no
record updated". -/
theorem UpdateUser_unused_id_email_taken :
    ¬ ∀ (db : DB) (pid : PathId) (body : Decoded User),
        (∀ r ∈ db.rows, r.ID ≠ pid.val) →
        (UpdateUser db pid body).1.body = Body.text "no record updated" := by
  intro h
  have h1 := h dbAB { val := 99, err := false } { val := userA, err := false } (by decide)
  have h2 : (UpdateUser dbAB { val := 99, err := false } { val := userA, err := false }).1.body
      = Body.text "email already in use" := rfl
  rw [h2] at h1
  injection h1 with h3
  exact absurd h3 (by decide)

/-- C5 (amended): for every table, every id that matches no row and every
request body, `UpdateUser` answers 400 "no record updated" when no row holds
the body's email, and 400 "email already in use" when some row holds it; the
rows are unchanged either way. -/
theorem UpdateUser_missing_id (db : DB) (pid : PathId) (body : Decoded User)
    (hmiss : ∀ r ∈ db.rows, r.ID ≠ pid.val) :
    ((∀ r ∈ db.rows, r.Email ≠ body.val.Email) →
      (UpdateUser db pid body).1.status = 400 ∧
      (UpdateUser db pid body).1.body = Body.text "no record updated") ∧
    ((∃ r ∈ db.rows, r.Email = body.val.Email) →
      (UpdateUser db pid body).1.status = 400 ∧
      (UpdateUser db pid body).1.body = Body.text "email already in use") ∧
    (UpdateUser db pid body).2.rows = db.rows := by
  have hfind := find_id_none hmiss
  refine ⟨?_, ?_, ?_⟩
  · intro hfree
    have hany : ¬ ∃ x ∈ db.rows, x.Email = body.val.Email ∧ ¬ x.ID = pid.val :=
      no_other_holder hfree
    simp [UpdateUser, DB.queryEmailExistsOther, DB.execUpdate, DB.updateWhereId, DB.issue,
      hany, hfind, httpError]
  · rintro ⟨b, hb, he⟩
    have hany : ∃ x ∈ db.rows, x.Email = body.val.Email ∧ ¬ x.ID = pid.val :=
      ⟨b, hb, he, hmiss b hb⟩
    simp [UpdateUser, DB.queryEmailExistsOther, DB.issue, hany, httpError]
  · by_cases hany : ∃ x ∈ db.rows, x.Email = body.val.Email ∧ ¬ x.ID = pid.val
    · simp [UpdateUser, DB.queryEmailExistsOther, DB.issue, hany]
    · simp [UpdateUser, DB.queryEmailExistsOther, DB.execUpdate, DB.updateWhereId, DB.issue,
        hany, hfind]

/-- Witness for C5 (amended): the table of A and B, id 99, a body with an
unused email. -/
theorem UpdateUser_missing_id_witness :
    (UpdateUser dbAB { val := 99, err := false }
      { val := { userA with Email := "c@x.com" }, err := false }).1.body
        = Body.text "no record updated" :=
  ((UpdateUser_missing_id dbAB { val := 99, err := false }
      { val := { userA with Email := "c@x.com" }, err := false } (by decide)).1
    (by decide)).2

/-- C2: on a table (primary key, counter above the ids) with no record of
email e, a first `CreateUser` with email e is answered 201 with the generated
id, which no earlier row carries, and appends that row; a second `CreateUser`
with the same email is answered 400 "email already exists" and leaves the rows
as the first request left them. -/
theorem CreateUser_same_email_twice (db : DB) (u u2 : User) (hwf : db.WF)
    (hfresh : ∀ r ∈ db.rows, r.Email ≠ u.Email) (hsame : u2.Email = u.Email) :
    (CreateUser db { val := u, err := false }).1 =
      { status := 201,
        body := Body.json (Json.obj
          ([("id", Json.num db.nextId), ("firstName", Json.str u.FirstName),
            ("lastName", Json.str u.LastName), ("email", Json.str u.Email)]
            ++ (if u.Password = "" then [] else [("password", Json.str u.Password)])
            ++ [("age", Json.num u.Age)])) } ∧
    (∀ r ∈ db.rows, r.ID ≠ db.nextId) ∧
    (CreateUser db { val := u, err := false }).2.rows = db.rows ++ [{ u with ID := db.nextId }] ∧
    (CreateUser (CreateUser db { val := u, err := false }).2 { val := u2, err := false }).1 =
      { status := 400, body := Body.text "email already exists" } ∧
    (CreateUser (CreateUser db { val := u, err := false }).2 { val := u2, err := false }).2.rows =
      (CreateUser db { val := u, err := false }).2.rows := by
  have hne : ∀ r ∈ db.rows, r.ID ≠ db.nextId := fun r hr => ne_of_lt (hwf.2 r hr)
  rw [CreateUser_fresh db u hwf hfresh]
  refine ⟨rfl, hne, rfl, ?_, ?_⟩
  · rw [CreateUser_taken _ u2 ⟨{ u with ID := db.nextId }, by simp, hsame.symm⟩]
    rfl
  · rw [CreateUser_taken _ u2 ⟨{ u with ID := db.nextId }, by simp, hsame.symm⟩]
    rfl

/-- Witness for C2: the table of A and B and a new user C. -/
theorem CreateUser_same_email_twice_witness :
    (CreateUser (CreateUser dbAB
        { val := { userA with Email := "c@x.com" }, err := false }).2
        { val := { userB with Email := "c@x.com" }, err := false }).1 =
      { status := 400, body := Body.text "email already exists" } :=
  (CreateUser_same_email_twice dbAB { userA with Email := "c@x.com" }
    { userB with Email := "c@x.com" } (by decide) (by decide) rfl).2.2.2.1

/-- C3: on a table (primary key, counter above the ids) with no record of the
body's email, `CreateUser` answers 201 with the JSON object of the generated
id i and the body's first name, last name, email, password and age, whatever
id the body carried; the record is stored with those same values under id i;
and `GetUser` for i then answers 200 with the same JSON object; read back
into a `models.User`, that object gives the same first name, last name, email,
password and age and the id i.  The object is written out member by member:
`password` carries `omitempty`, so an empty password, stored as it is, has no
member in either body and reads back as the empty password. -/
theorem create_then_get_round_trip (db : DB) (u : User) (hwf : db.WF)
    (hfresh : ∀ r ∈ db.rows, r.Email ≠ u.Email) :
    (CreateUser db { val := u, err := false }).1 =
      { status := 201,
        body := Body.json (Json.obj
          ([("id", Json.num db.nextId), ("firstName", Json.str u.FirstName),
            ("lastName", Json.str u.LastName), ("email", Json.str u.Email)]
            ++ (if u.Password = "" then [] else [("password", Json.str u.Password)])
            ++ [("age", Json.num u.Age)])) } ∧
    (∀ j : Int, CreateUser db { val := { u with ID := j }, err := false } =
      CreateUser db { val := u, err := false }) ∧
    (CreateUser db { val := u, err := false }).2.rows =
      db.rows ++ [{ ID := db.nextId, FirstName := u.FirstName, LastName := u.LastName,
                    Email := u.Email, Password := u.Password, Age := u.Age }] ∧
    (GetUser (CreateUser db { val := u, err := false }).2 { val := db.nextId, err := false }).1 =
      { status := 200,
        body := Body.json (Json.obj
          ([("id", Json.num db.nextId), ("firstName", Json.str u.FirstName),
            ("lastName", Json.str u.LastName), ("email", Json.str u.Email)]
            ++ (if u.Password = "" then [] else [("password", Json.str u.Password)])
            ++ [("age", Json.num u.Age)])) } ∧
    decodeUser (Json.obj
        ([("id", Json.num db.nextId), ("firstName", Json.str u.FirstName),
          ("lastName", Json.str u.LastName), ("email", Json.str u.Email)]
          ++ (if u.Password = "" then [] else [("password", Json.str u.Password)])
          ++ [("age", Json.num u.Age)])) =
      { ID := db.nextId, FirstName := u.FirstName, LastName := u.LastName,
        Email := u.Email, Password := u.Password, Age := u.Age } := by
  refine ⟨?_, ?_, ?_, ?_, decodeUser_toJson { u with ID := db.nextId }⟩
  · rw [CreateUser_fresh db u hwf hfresh]
    rfl
  · intro j
    rw [CreateUser_fresh db u hwf hfresh, CreateUser_fresh db { u with ID := j } hwf hfresh]
  · rw [CreateUser_fresh db u hwf hfresh]
  · rw [CreateUser_fresh db u hwf hfresh]
    have hfind : (db.rows ++ [{ u with ID := db.nextId }]).find?
        (fun r => decide (r.ID = db.nextId)) = some { u with ID := db.nextId } :=
      find_id_append_new db.rows { u with ID := db.nextId } (fun r hr => ne_of_lt (hwf.2 r hr))
    simp only [GetUser, DB.queryById, hfind]
    rfl

/-- Witness for C3: Ann Lee on the table of A and B. -/
theorem create_then_get_round_trip_witness :
    (GetUser (CreateUser dbAB
        { val := { ID := 77, FirstName := "Ann", LastName := "Lee", Email := "ann@example.com",
                   Password := "x", Age := 30 }, err := false }).2
        { val := 3, err := false }).1 =
      { status := 200,
        body := Body.json (Json.obj
          [("id", Json.num 3), ("firstName", Json.str "Ann"), ("lastName", Json.str "Lee"),
           ("email", Json.str "ann@example.com"), ("password", Json.str "x"),
           ("age", Json.num 30)]) } :=
  (create_then_get_round_trip dbAB
    { ID := 77, FirstName := "Ann", LastName := "Lee", Email := "ann@example.com",
      Password := "x", Age := 30 } (by decide) (by decide)).2.2.2.1

/-- C4: on a table with primary key `id` holding A and B with different emails,
a PUT on A's id whose body carries B's email is answered 400 "email already in
use" and the rows, A's among them, are unchanged. -/
theorem UpdateUser_email_collision (db : DB) (a b : User) (body : Decoded User) (e : Bool)
    (hpk : PrimaryKey db.rows) (ha : a ∈ db.rows) (hb : b ∈ db.rows)
    (hem : a.Email ≠ b.Email) (hbody : body.val.Email = b.Email) :
    (UpdateUser db { val := a.ID, err := e } body).1 =
      { status := 400, body := Body.text "email already in use" } ∧
    (UpdateUser db { val := a.ID, err := e } body).2.rows = db.rows ∧
    a ∈ (UpdateUser db { val := a.ID, err := e } body).2.rows := by
  have hab : a ≠ b := fun h => hem (by rw [h])
  have hid : b.ID ≠ a.ID := fun h => pk_id_ne hpk ha hb hab h.symm
  have hany : ∃ x ∈ db.rows, x.Email = body.val.Email ∧ ¬ x.ID = a.ID :=
    ⟨b, hb, hbody.symm, hid⟩
  simp [UpdateUser, DB.queryEmailExistsOther, DB.issue, hany, httpError, ha]

/-- Witness for C4: A takes B's email on the table of A and B. -/
theorem UpdateUser_email_collision_witness :
    (UpdateUser dbAB { val := 1, err := false }
      { val := { userA with Email := "b@x.com" }, err := false }).2.rows = dbAB.rows :=
  (UpdateUser_email_collision dbAB userA userB
    { val := { userA with Email := "b@x.com" }, err := false } false
    (by decide) (by decide) (by decide) (by decide) rfl).2.1

/-- C8: on a table with primary key `id`, `DeleteUser` on the id of a stored
user u is answered 200 with the message "User deleted successfully"; the rows
afterwards are the rows before with u erased, so u is gone and every other
record is still there; `GetUser` for that id is then answered 404 "user not
found". -/
theorem delete_then_get (db : DB) (u : User) (e : Bool)
    (hpk : PrimaryKey db.rows) (hu : u ∈ db.rows) :
    (DeleteUser db { val := u.ID, err := false }).1 =
      { status := 200, body := Body.json (Json.obj [("message", Json.str "User deleted successfully")]) } ∧
    (DeleteUser db { val := u.ID, err := false }).2.rows = db.rows.erase u ∧
    u ∉ (DeleteUser db { val := u.ID, err := false }).2.rows ∧
    (∀ x ∈ db.rows, x ≠ u → x ∈ (DeleteUser db { val := u.ID, err := false }).2.rows) ∧
    (GetUser (DeleteUser db { val := u.ID, err := false }).2 { val := u.ID, err := e }).1 =
      { status := 404, body := Body.text "user not found" } := by
  have hcount : ∃ x ∈ db.rows, x.ID = u.ID := ⟨u, hu, rfl⟩
  have hdel : DeleteUser db { val := u.ID, err := false } =
      (okJson (messageJson "User deleted successfully"),
       { db.issue "DELETE FROM users WHERE id = ?" [Value.int u.ID] with
         rows := db.rows.filter (fun r => decide (r.ID ≠ u.ID)) }) := by
    simp [DeleteUser, DB.execDelete, DB.issue, hcount]
  rw [hdel]
  have hnd : db.rows.Nodup := List.Nodup.of_map User.ID hpk
  have hgone : ∀ r ∈ db.rows.filter (fun r => decide (r.ID ≠ u.ID)), r.ID ≠ u.ID := by
    intro r hr
    simpa using (List.mem_filter.mp hr).2
  refine ⟨rfl, filter_id_eq_erase hpk hu, ?_, ?_, ?_⟩
  · intro hmem
    exact hgone u hmem rfl
  · intro x hx hxu
    exact List.mem_filter.mpr ⟨hx, by simpa using pk_id_ne hpk hx hu hxu⟩
  · have hfind := find_id_none hgone
    simp only [GetUser, DB.queryById, DB.issue, hfind]
    rfl

/-- Witness for C8: A is deleted from the table of A and B. -/
theorem delete_then_get_witness :
    (DeleteUser dbAB { val := 1, err := false }).2.rows = dbAB.rows.erase userA :=
  (delete_then_get dbAB userA false (by decide) (by decide)).2.1

/-- C6: on a table with primary key `id` holding a user u of age 30, a PATCH on
u's id with body `age: 31` sends `UPDATE users SET age = ? WHERE id = ?` with
the parameters 31 and u's id and is answered 200 with the message "patched";
the rows afterwards are the rows before with u replaced by u at age 31, every
other field of u and every other record as before. -/
theorem PatchUser_age_only (db : DB) (u : User) (e : Bool)
    (hpk : PrimaryKey db.rows) (hu : u ∈ db.rows) (hage : u.Age = 30) :
    ∃ out, PatchUser db { val := u.ID, err := e }
        { val := [("age", Value.float64 31)], err := false } = some out ∧
      out.1 = { status := 200,
                body := Body.json (Json.obj [("message", Json.str "patched")]) } ∧
      out.2.rows = db.rows.map (fun x => if x = u then
        { ID := u.ID, FirstName := u.FirstName, LastName := u.LastName, Email := u.Email,
          Password := u.Password, Age := 31 } else x) ∧
      out.2.log = db.log ++ [{ query := "UPDATE users SET age = ? WHERE id = ?",
                               args := [Value.float64 31, Value.int u.ID] }] := by
  have hfind := find_id_of_mem hpk hu
  have hlook : List.lookup "email" [("age", Value.float64 31)] = none := by decide
  have hcols : resolveColumns [("age", Value.float64 31)] =
      some [(Column.age, Value.float64 31)] := by decide
  have hne : ¬ ({ u with Age := 31 } : User) = u := by
    intro h
    have h2 : (31 : Int) = u.Age := congrArg User.Age h
    rw [hage] at h2
    exact absurd h2 (by decide)
  have htext : patchStatement [("age", Value.float64 31)] u.ID =
      ("UPDATE users SET age = ? WHERE id = ?", [Value.float64 31, Value.int u.ID]) := rfl
  have hexec := exec_patchStatement db [("age", Value.float64 31)] u.ID (by simp) (by decide)
  rw [htext] at hexec
  refine ⟨(okJson (messageJson "patched"),
    { rows := db.rows.map (fun x => if x.ID = u.ID then { u with Age := 31 } else x),
      nextId := max db.nextId (u.ID + 1),
      log := db.log ++ [{ query := "UPDATE users SET age = ? WHERE id = ?",
                          args := [Value.float64 31, Value.int u.ID] }] }), ?_, rfl, ?_, rfl⟩
  · simp [PatchUser, hlook, htext, hexec, hcols, DB.updateWhereId, DB.issue, hfind,
      User.assignAll, User.assign, Value.toInteger, hne, Value.unsupported]
  · exact map_id_eq_map_row hpk hu _

/-- Witness for C6: A, aged 30, on the table of A and B. -/
theorem PatchUser_age_only_witness :
    ∃ out, PatchUser dbAB { val := 1, err := false }
        { val := [("age", Value.float64 31)], err := false } = some out ∧
      out.1 = { status := 200,
                body := Body.json (Json.obj [("message", Json.str "patched")]) } ∧
      out.2.rows = [{ userA with Age := 31 }, userB] ∧
      out.2.log = [{ query := "UPDATE users SET age = ? WHERE id = ?",
                     args := [Value.float64 31, Value.int 1] }] :=
  PatchUser_age_only dbAB userA false (by decide) (by decide) rfl

/-- A key that ends in a `#` comment: the statement built for one key reads
`age = 99 WHERE id = 2` and has no parameter marker for its two parameters, so
it fails and the answer is 500 "patch failed". -/
theorem PatchUser_key_with_comment :
    (patchStatement [("age = 99 WHERE id = 2 #", Value.string "x")] 1).1 =
      "UPDATE users SET age = 99 WHERE id = 2 # = ? WHERE id = ?" ∧
    placeholders (patchStatement [("age = 99 WHERE id = 2 #", Value.string "x")] 1).1 = some 0 ∧
    (PatchUser dbAB { val := 1, err := false }
        { val := [("age = 99 WHERE id = 2 #", Value.string "x")], err := false }).map
      (fun out => (out.1.status, out.2.rows)) = some (500, dbAB.rows) := by
  refine ⟨by decide, by decide, rfl⟩

/-- A key that carries an assignment of its own: the statement built for one
key has two assignments, and both are carried out. -/
theorem PatchUser_key_with_assignment :
    (lexSql (patchStatement [("age = 99, first_name", Value.string "Zed")] 1).1).bind parseUpdate =
      some { sets := [("age", Operand.literal 99), ("first_name", Operand.marker)],
             whereColumn := "id", whereOperand := Operand.marker } ∧
    (PatchUser dbAB { val := 1, err := false }
        { val := [("age = 99, first_name", Value.string "Zed")], err := false }).map
      (fun out => (out.1.status, out.2.rows)) =
        some (200, [{ userA with FirstName := "Zed", Age := 99 }, userB]) := by
  refine ⟨by decide, rfl⟩

/-- C10 (as stated, refuted): for the one-key mapping with key
`age = ?, first_name` the statement built has three parameter markers and two
parameters, and its SET clause has two assignments. -/
theorem patchStatement_key_with_marker :
    (patchStatement [("age = ?, first_name", Value.string "Bob")] 1).1 =
      "UPDATE users SET age = ?, first_name = ? WHERE id = ?" ∧
    placeholders (patchStatement [("age = ?, first_name", Value.string "Bob")] 1).1 = some 3 ∧
    (patchStatement [("age = ?, first_name", Value.string "Bob")] 1).2.length = 2 ∧
    ¬ placeholders (patchStatement [("age = ?, first_name", Value.string "Bob")] 1).1 =
        some ([("age = ?, first_name", Value.string "Bob")].length + 1) ∧
    (lexSql (patchStatement [("age = ?, first_name", Value.string "Bob")] 1).1).bind parseUpdate =
      some { sets := [("age", Operand.marker), ("first_name", Operand.marker)],
             whereColumn := "id", whereOperand := Operand.marker } := by
  refine ⟨by decide, by decide, by decide, by decide, by decide⟩

/-- C10 (amended): for every non-empty mapping whose keys are bare words
(letters, digits and underscores, not starting with a digit), with entries
taken in iteration order: the text is `UPDATE users SET ` + the parts `k = ?`
joined by `, ` + ` WHERE id = ?`; read as SQL it is the UPDATE with exactly
the assignments `k = ?`, one per key and in that order, and the clause
`WHERE id = ?`; the parameters are the values followed by the path id; text
and parameter list both count n+1; bound in order, the marker of each key
receives that key's value and the marker of the WHERE clause the path id; and
this statement is the one `PatchUser` sends. -/
theorem patchStatement_aligned (upd : List (String × Value)) (id : Int)
    (hne : upd ≠ []) (hkeys : ∀ kv ∈ upd, isBareWord kv.1 = true) :
    (patchStatement upd id).1 =
      "UPDATE users SET " ++ ", ".intercalate (upd.map (fun kv => kv.1 ++ " = ?"))
        ++ " WHERE id = ?" ∧
    (patchStatement upd id).2 = upd.map Prod.snd ++ [Value.int id] ∧
    lexSql (patchStatement upd id).1 = some (patchTokens (upd.map Prod.fst)) ∧
    (lexSql (patchStatement upd id).1).bind parseUpdate =
      some { sets := upd.map (fun kv => (kv.1, Operand.marker)),
             whereColumn := "id", whereOperand := Operand.marker } ∧
    placeholders (patchStatement upd id).1 = some (upd.length + 1) ∧
    (patchStatement upd id).2.length = upd.length + 1 ∧
    bindStmt { sets := upd.map (fun kv => (kv.1, Operand.marker)),
               whereColumn := "id", whereOperand := Operand.marker }
        (patchStatement upd id).2 = some (upd, Value.int id) ∧
    (∀ i, i < upd.length → ∃ kv, upd[i]? = some kv ∧
      (upd.map (fun kv => kv.1 ++ " = ?"))[i]? = some (kv.1 ++ " = ?") ∧
      (patchStatement upd id).2[i]? = some kv.2) ∧
    (patchStatement upd id).2[upd.length]? = some (Value.int id) ∧
    (∀ (db : DB) (e : Bool), ∃ out,
      PatchUser db { val := id, err := e } { val := upd, err := false } = some out ∧
      (out.1.body ≠ Body.text "email already exists" →
        out.2.log.getLast? =
          some { query := (patchStatement upd id).1, args := (patchStatement upd id).2 })) := by
  have hexec := fun (db : DB) => exec_patchStatement db upd id hne hkeys
  have hsome : ∀ (db : DB) (e : Bool), ∃ out,
      PatchUser db { val := id, err := e } { val := upd, err := false } = some out := by
    intro db e
    have hlen : ¬ upd.length = 0 := fun h => hne (List.length_eq_zero.mp h)
    unfold PatchUser
    simp only [hlen, Bool.false_eq_true, if_false, hexec]
    split
    · exact ⟨_, rfl⟩
    · split
      · rename_i h
        cases h
      · exact ⟨_, rfl⟩
      · split <;> exact ⟨_, rfl⟩
  have hpoint : ∀ i, i < upd.length → ∃ kv, upd[i]? = some kv ∧
      (upd.map (fun kv => kv.1 ++ " = ?"))[i]? = some (kv.1 ++ " = ?") ∧
      (patchStatement upd id).2[i]? = some kv.2 := by
    rw [patchStatement_eq]
    intro i hi
    refine ⟨upd[i], by simp [hi], by simp [hi], ?_⟩
    simp [List.getElem?_append_left, hi]
  have hlast : (patchStatement upd id).2[upd.length]? = some (Value.int id) := by
    rw [patchStatement_eq]
    simp [List.getElem?_append_right]
  cases upd with
  | nil => exact absurd rfl hne
  | cons kv rest =>
    have hb : ∀ x ∈ kv.1 :: rest.map Prod.fst, isBareWord x = true := by
      intro x hx
      rcases List.mem_cons.mp hx with h | h
      · rw [h]
        exact hkeys kv (List.mem_cons_self _ _)
      · obtain ⟨y, hy, hxy⟩ := List.mem_map.mp h
        rw [← hxy]
        exact hkeys y (List.mem_cons_of_mem _ hy)
    have hlex := lex_patchStatement kv.1 (rest.map Prod.fst) hb
    have hparse := parse_patchTokens kv.1 (rest.map Prod.fst)
    have hbind := bindStmt_patch (kv :: rest) id
    have hcount := count_patchTokens kv.1 (rest.map Prod.fst)
    simp only [List.map_cons, List.map_map, Function.comp_def, List.length_cons,
      List.length_map] at hlex hparse hbind hcount
    refine ⟨?_, ?_, ?_, ?_, ?_, ?_, ?_, ?_, ?_, ?_⟩
    · rw [patchStatement_eq]
    · rw [patchStatement_eq]
    · rw [patchStatement_eq]
      simpa using hlex
    · rw [patchStatement_eq]
      exact Option.bind_eq_some.mpr ⟨_, by simpa using hlex, by simpa using hparse⟩
    · rw [patchStatement_eq]
      simp only [placeholders, List.map_cons, hlex, Option.map_some', List.length_cons]
      rw [hcount]
    · rw [patchStatement_eq]
      simp
    · rw [patchStatement_eq]
      simpa using hbind
    · exact hpoint
    · exact hlast
    · intro db e
      obtain ⟨out, hout⟩ := hsome db e
      exact ⟨out, hout, fun hnot =>
        PatchUser_issues db { val := id, err := e } (kv :: rest) out hne hout hnot⟩

/-- Witness for C10 (amended): the mapping with keys `age` and `first_name`. -/
theorem patchStatement_aligned_witness :
    (lexSql (patchStatement [("age", Value.float64 31), ("first_name", Value.string "Bob")] 7).1).bind
        parseUpdate =
      some { sets := [("age", Operand.marker), ("first_name", Operand.marker)],
             whereColumn := "id", whereOperand := Operand.marker } :=
  (patchStatement_aligned [("age", Value.float64 31), ("first_name", Value.string "Bob")] 7
    (by decide) (by decide)).2.2.2.1

end CrudApi
